import Mathlib

/-!
Shallow embedding of the datum synchronization engine
(package `core` of github.com/jprybylski/datum) and proofs about it.

External collaborators (the OS filesystem, the YAML codec, the handlers'
network I/O) are modelled as explicit parameters: the filesystem is a map
from path to content, `os.ReadFile` results are an `Except` value, the YAML
codecs are abstract (de)serialization functions, and a handler is a pair of
pure functions from a source descriptor to an `Except` result, which is
faithful for a single run (handlers are queried with fixed inputs).
-/

namespace Datum

/-- `registry.Source` (internal/registry/registry.go): the tagged source
descriptor.  All fields are carried; the engine only inspects `type_`. -/
structure Source where
  type_ : String
  url : String := ""
  path : String := ""
  ref : String := ""
  fingerprintCmd : String := ""
  fetchCmd : String := ""
deriving DecidableEq

/-- `registry.Fetcher`: the two-operation handler capability.  `fetch`
returns the content that the handler materializes at the destination path
(the engine model writes it into the filesystem map itself). -/
structure Fetcher where
  fingerprint : Source → Except String String
  fetch : Source → Except String String

/-- `registry.Get`: the process-wide registry, as a lookup function. -/
def Registry : Type := String → Option Fetcher

/-- `core.Dataset` (datum config.go): single `source` field plus the
multi-source `sources` list. -/
structure Dataset where
  id : String
  desc : String := ""
  target : String
  policy : String := ""
  source : Source := { type_ := "" }
  sources : List Source := []
deriving DecidableEq

/-- `core.Defaults`. -/
structure Defaults where
  policy : String := ""
  algo : String := ""
deriving DecidableEq

/-- `core.Config`. -/
structure Config where
  version : Int := 0
  defaults : Defaults := {}
  datasets : List Dataset := []
deriving DecidableEq

/-- `core.LockItem` (datum lock.go): per-dataset persisted state.
Timestamps are modelled as `Nat`; a Go `*time.Time` is an `Option Nat`. -/
structure LockItem where
  localSHA256 : String := ""
  remoteFingerprint : String := ""
  checkedAt : Option Nat := none
  inaccessibleAt : Option Nat := none
  inaccessibleError : String := ""
deriving DecidableEq

/-- `core.Lock`: the whole lock state.  The Go `map[string]*LockItem` is a
total lookup function (the engine creates a fresh `&LockItem` per id, so
there is no aliasing between keys). -/
structure Lock where
  version : Int := 0
  lastChecked : Option Nat := none
  items : String → Option LockItem

/-- `firstNonEmpty` (hash.go): first of two strings that is non-empty. -/
def firstNonEmpty (a b : String) : String :=
  if a.length > 0 then a else b

/-- The filesystem seen by the engine: path to file content. -/
def FS : Type := String → Option String

/-- Writing a file: `os.WriteFile` / a successful handler `Fetch`. -/
def writeFile (fs : FS) (p c : String) : FS :=
  fun x => if x = p then some c else fs x

/-- Updating one key of the lock items map. -/
def insertItem (m : String → Option LockItem) (k : String) (v : LockItem) :
    String → Option LockItem :=
  fun x => if x = k then some v else m x

/-- The status/event stream of a run (the engine's printed lines plus the
handler invocations and the final lock save, recorded for the proofs of
side-effect claims). -/
inductive Event where
  | warnUnknownType (id tag : String)
  | fingerprintCall (tag : String) (src : Source)
  | errFingerprint (id err : String)
  | fetchCall (tag : String) (src : Source)
  | errFetch (id err : String)
  | updLine (id : String)
  | okLine (id : String)
  | staleLine (id : String)
  | failLine (id : String)
  | fetchLine (id : String)
  | warnPolicy (id policy : String)
  | saveLock
deriving DecidableEq

/-- The in-flight state of one engine run: the exit code accumulator, the
in-memory lock items, the filesystem, and the emitted events. -/
structure EngSt where
  exitCode : Int
  items : String → Option LockItem
  fs : FS
  trace : List Event

/-- The body of the per-dataset loop of `Check` (datum engine.go).

Faithful cases: unknown handler type bumps a zero exit code to 2;
fingerprint failure bumps a zero exit code to 1; `update` refreshes on
stale-or-missing-target (recording `inaccessible_at`/`inaccessible_error`
on fetch failure, clearing them on success), otherwise refreshes the
entry's hash/fingerprint/timestamp in place; `log` and `fail` never touch
the lock items; an unrecognized policy warns and escalates like `fail`. -/
def checkStep (reg : Registry) (hash : String → String) (defPolicy : String)
    (now : Nat) (st : EngSt) (ds : Dataset) : EngSt :=
  let policy := firstNonEmpty ds.policy defPolicy
  match reg ds.source.type_ with
  | none =>
      { st with
        exitCode := if st.exitCode = 0 then 2 else st.exitCode,
        trace := st.trace ++ [.warnUnknownType ds.id ds.source.type_] }
  | some f =>
      let tr0 := st.trace ++ [Event.fingerprintCall ds.source.type_ ds.source]
      match f.fingerprint ds.source with
      | .error e =>
          { st with
            exitCode := if st.exitCode = 0 then 1 else st.exitCode,
            trace := tr0 ++ [.errFingerprint ds.id e] }
      | .ok fp =>
          let item := st.items ds.id
          let targetExists := (st.fs ds.target).isSome
          let localHash := match st.fs ds.target with
            | some c => hash c
            | none => ""
          let stale : Bool := match item with
            | none => true
            | some it => it.remoteFingerprint != fp
          if policy = "update" then
            if stale || !targetExists then
              let tr1 := tr0 ++ [Event.updLine ds.id,
                                 Event.fetchCall ds.source.type_ ds.source]
              match f.fetch ds.source with
              | .error e =>
                  let it0 := item.getD {}
                  { exitCode := if st.exitCode = 0 then 1 else st.exitCode,
                    items := insertItem st.items ds.id
                      { it0 with inaccessibleAt := some now,
                                 inaccessibleError := e },
                    fs := st.fs,
                    trace := tr1 ++ [.errFetch ds.id e] }
              | .ok content =>
                  { exitCode := st.exitCode,
                    items := insertItem st.items ds.id
                      { localSHA256 := hash content,
                        remoteFingerprint := fp,
                        checkedAt := some now,
                        inaccessibleAt := none,
                        inaccessibleError := "" },
                    fs := writeFile st.fs ds.target content,
                    trace := tr1 }
            else
              let it0 := item.getD {}
              { st with
                items := insertItem st.items ds.id
                  { it0 with localSHA256 := localHash,
                             remoteFingerprint := fp,
                             checkedAt := some now },
                trace := tr0 ++ [.okLine ds.id] }
          else if policy = "log" then
            { st with
              trace := tr0 ++
                [if stale then Event.staleLine ds.id else Event.okLine ds.id] }
          else if policy = "fail" then
            if stale then
              { st with exitCode := 1, trace := tr0 ++ [.failLine ds.id] }
            else
              { st with trace := tr0 ++ [.okLine ds.id] }
          else
            { st with
              exitCode := if stale then 1 else st.exitCode,
              trace := tr0 ++ [.warnPolicy ds.id policy] }

/-- The dataset loop of `Check`, folded over the configured datasets in
order, starting from the loaded lock items and the current filesystem. -/
def checkOver (reg : Registry) (hash : String → String) (cfg : Config)
    (items0 : String → Option LockItem) (fs0 : FS) (now : Nat) : EngSt :=
  List.foldl (checkStep reg hash cfg.defaults.policy now)
    ⟨0, items0, fs0, []⟩ cfg.datasets

/-- Errors that `os.ReadFile` can return, as the engine distinguishes them:
it does not — any error is treated identically (relevant to `readLock`). -/
inductive IOErr where
  | notExist
  | permissionDenied
  | other (msg : String)
deriving DecidableEq

/-- `readLock` (datum lock.go): takes the result of `os.ReadFile` and the
YAML decoder, and returns the Go pair `(*Lock, error)`: `(none, some e)` is
the `(nil, err)` return on a parse failure; any read failure yields a fresh
empty lock and no error.  A successfully decoded lock always has a total
items map here, which also covers the `l.Items == nil` re-initialization. -/
def readLock (readResult : Except IOErr String)
    (parse : String → Except String Lock) : Option Lock × Option String :=
  match readResult with
  | .error _ =>
      (some { version := 1, lastChecked := none, items := fun _ => none },
       none)
  | .ok b =>
      match parse b with
      | .error e => (none, some e)
      | .ok l => (some l, none)

/-- `writeLock` (datum lock.go), first phase: the serialized lock is
written to `path ++ ".tmp"`. -/
def writeLockTmp (fs : FS) (path content : String) : FS :=
  writeFile fs (path ++ ".tmp") content

/-- `writeLock`, second phase: `os.Rename` moves the temporary file onto
the destination path. -/
def writeLockDone (fs : FS) (path content : String) : FS :=
  fun x =>
    if x = path then some content
    else if x = path ++ ".tmp" then none
    else fs x

/-- The two validation failures of `validateDataset` (datum config.go). -/
inductive ValErr where
  | missingSource
  | ambiguousSource
deriving DecidableEq

/-- `validateDataset` (datum config.go): a dataset must have exactly one
of the single `source` field (`Type` non-empty) and the `sources` list
(non-empty). -/
def validateDataset (ds : Dataset) : Option ValErr :=
  let hasSource : Bool := ds.source.type_ != ""
  let hasSources : Bool := ds.sources.length > 0
  if !hasSource && !hasSources then some .missingSource
  else if hasSource && hasSources then some .ambiguousSource
  else none

/-- Configuration load failures: the YAML layer's read/parse failure, or
the first dataset rejected by `validateDataset`, with its index and id as
in the wrapped Go error. -/
inductive ConfigErr where
  | parseError (msg : String)
  | datasetInvalid (index : Nat) (id : String) (e : ValErr)
deriving DecidableEq

/-- The defaulting step of `readConfig`: empty defaults become
`fail` / `sha256`. -/
def applyDefaults (c : Config) : Config :=
  { c with defaults :=
      { policy := if c.defaults.policy = "" then "fail" else c.defaults.policy,
        algo := if c.defaults.algo = "" then "sha256" else c.defaults.algo } }

/-- The validation loop of `readConfig`: the first dataset failing
`validateDataset`, in configured order, with its index. -/
def firstInvalid : Nat → List Dataset → Option (Nat × String × ValErr)
  | _, [] => none
  | i, ds :: rest =>
      match validateDataset ds with
      | some e => some (i, ds.id, e)
      | none => firstInvalid (i + 1) rest

/-- `readConfig` (datum config.go): decode (modelled as the already-decoded
`Except` result of read + `yaml.Unmarshal`), apply defaults, then validate
every dataset before returning — so a malformed dataset fails the whole
load, before any handler operation can run. -/
def readConfig (raw : Except String Config) : Except ConfigErr Config :=
  match raw with
  | .error e => .error (.parseError e)
  | .ok c0 =>
      let c := applyDefaults c0
      match firstInvalid 0 c.datasets with
      | some (i, id, e) => .error (.datasetInvalid i id e)
      | none => .ok c

/-- `Dataset.GetSources` (datum config.go): the normalized ordered source
list — the `sources` list when present, else the single `source` wrapped
in a one-element list. -/
def Dataset.GetSources (ds : Dataset) : List Source :=
  if ds.sources.length > 0 then ds.sources else [ds.source]

/-- The outcome of one run of `Check` or `Fetch`:
`cfgError` is the early `return 2` on a configuration load failure;
`panicked` is the nil-pointer dereference of `lk.Items` when `readLock`
returned `(nil, err)`; `done` carries the exit code, the lock state handed
to `writeLock`, the final filesystem, and the event trace. -/
inductive RunResult where
  | cfgError
  | panicked
  | done (exitCode : Int) (lk : Lock) (fs : FS) (trace : List Event)

/-- The exit code of a run: `none` when the run panicked and never
returned one. -/
def RunResult.exitOf : RunResult → Option Int
  | .cfgError => some 2
  | .panicked => none
  | .done e _ _ _ => some e

/-- The lock state passed to `writeLock`, when the run reached it. -/
def RunResult.lockOf : RunResult → Option Lock
  | .done _ lk _ _ => some lk
  | _ => none

/-- The final filesystem, when the run reached the end. -/
def RunResult.fsOf : RunResult → Option FS
  | .done _ _ fs _ => some fs
  | _ => none

/-- The event trace of a run (empty when the run stopped in the prelude,
which emits no dataset events and performs no handler call). -/
def RunResult.traceOf : RunResult → List Event
  | .done _ _ _ tr => tr
  | _ => []

/-- `Check` (datum engine.go): load the configuration (early exit 2 on
failure), load the lock (the returned error is discarded and a nil lock
pointer is dereferenced — `panicked`), run the dataset loop, then set
`Version`/`LastChecked` and save once.  `writeOK` is whether `writeLock`
succeeds; its failure only bumps a zero exit code to 1. -/
def Check (reg : Registry) (hash : String → String)
    (cfgR : Except ConfigErr Config) (lockR : Option Lock × Option String)
    (fs0 : FS) (now : Nat) (writeOK : Bool) : RunResult :=
  match cfgR with
  | .error _ => .cfgError
  | .ok cfg =>
      match lockR.fst with
      | none => .panicked
      | some lk0 =>
          let st := checkOver reg hash cfg lk0.items fs0 now
          let lkF : Lock :=
            { version := 1, lastChecked := some now, items := st.items }
          let exitF : Int :=
            if writeOK then st.exitCode
            else if st.exitCode = 0 then 1 else st.exitCode
          .done exitF lkF st.fs (st.trace ++ [Event.saveLock])

/-- The body of the per-dataset loop of `Fetch` (datum engine.go): skip
ids outside the requested set; unknown handler bumps a zero exit code
to 2; fetch failure records the inaccessible fields and bumps to 1; a
fingerprint failure after a successful fetch bumps to 1 and leaves the
lock entry alone; on success a fresh entry replaces the old one with
cleared inaccessible fields. -/
def fetchStep (reg : Registry) (hash : String → String) (which : List String)
    (now : Nat) (st : EngSt) (ds : Dataset) : EngSt :=
  if which.length > 0 && !(which.contains ds.id) then st
  else
    match reg ds.source.type_ with
    | none =>
        { st with
          exitCode := if st.exitCode = 0 then 2 else st.exitCode,
          trace := st.trace ++ [.warnUnknownType ds.id ds.source.type_] }
    | some f =>
        let tr0 := st.trace ++ [Event.fetchLine ds.id,
                                Event.fetchCall ds.source.type_ ds.source]
        match f.fetch ds.source with
        | .error e =>
            let it0 := (st.items ds.id).getD {}
            { exitCode := if st.exitCode = 0 then 1 else st.exitCode,
              items := insertItem st.items ds.id
                { it0 with inaccessibleAt := some now,
                           inaccessibleError := e },
              fs := st.fs,
              trace := tr0 ++ [.errFetch ds.id e] }
        | .ok content =>
            let fs1 := writeFile st.fs ds.target content
            let tr1 := tr0 ++ [Event.fingerprintCall ds.source.type_ ds.source]
            match f.fingerprint ds.source with
            | .error e =>
                { st with
                  exitCode := if st.exitCode = 0 then 1 else st.exitCode,
                  fs := fs1,
                  trace := tr1 ++ [.errFingerprint ds.id e] }
            | .ok fp =>
                { exitCode := st.exitCode,
                  items := insertItem st.items ds.id
                    { localSHA256 := hash content,
                      remoteFingerprint := fp,
                      checkedAt := some now,
                      inaccessibleAt := none,
                      inaccessibleError := "" },
                  fs := fs1,
                  trace := tr1 }

/-- The dataset loop of `Fetch`, folded over the configured datasets. -/
def fetchOver (reg : Registry) (hash : String → String) (cfg : Config)
    (which : List String) (items0 : String → Option LockItem) (fs0 : FS)
    (now : Nat) : EngSt :=
  List.foldl (fetchStep reg hash which now) ⟨0, items0, fs0, []⟩ cfg.datasets

/-- `Fetch` (datum engine.go): same prelude and postlude as `Check`, with
the forced-fetch dataset loop. -/
def Fetch (reg : Registry) (hash : String → String)
    (cfgR : Except ConfigErr Config) (which : List String)
    (lockR : Option Lock × Option String) (fs0 : FS) (now : Nat)
    (writeOK : Bool) : RunResult :=
  match cfgR with
  | .error _ => .cfgError
  | .ok cfg =>
      match lockR.fst with
      | none => .panicked
      | some lk0 =>
          let st := fetchOver reg hash cfg which lk0.items fs0 now
          let lkF : Lock :=
            { version := 1, lastChecked := some now, items := st.items }
          let exitF : Int :=
            if writeOK then st.exitCode
            else if st.exitCode = 0 then 1 else st.exitCode
          .done exitF lkF st.fs (st.trace ++ [Event.saveLock])

/-- Modelled from the spec: the result shape of the Fallback Coordinator
(§4.3) — the engine revision that iterates `GetSources` is not among the
source files here (only `GetSources` itself and the fallback tests are),
so the coordinator is taken from the spec's words: on success the value,
the winning source's index and the number of attempts; on exhaustion the
attempt count and the last error. -/
inductive FbResult (α : Type) where
  | ok (value : α) (sourceIndex : Nat) (attempts : Nat)
  | allFailed (attempts : Nat) (lastError : String)
deriving DecidableEq

/-- Modelled from the spec: one candidate attempt of the Fallback
Coordinator (§4.3) — resolve the handler via the registry (a resolution
failure is an immediate attempt failure for the candidate), then invoke
the requested operation on it. -/
def singleAttempt {α : Type} (reg : Registry)
    (op : Fetcher → Source → Except String α) (s : Source) :
    Except String α :=
  match reg s.type_ with
  | none => .error "handler not found"
  | some f => op f s

/-- Modelled from the spec: the Fallback Coordinator loop (§4.3), carrying
the index of the current candidate and the last error seen.  Besides the
result it returns the indices of the candidates whose handler operation
was actually invoked (a registry miss invokes nothing). -/
def attemptList {α : Type} (reg : Registry)
    (op : Fetcher → Source → Except String α) :
    List Source → Nat → String → FbResult α × List Nat
  | [], i, lastErr => (.allFailed i lastErr, [])
  | s :: rest, i, _ =>
      match reg s.type_ with
      | none => attemptList reg op rest (i + 1) "handler not found"
      | some f =>
          match op f s with
          | .ok v => (.ok v i (i + 1), [i])
          | .error e =>
              let p := attemptList reg op rest (i + 1) e
              (p.1, i :: p.2)

/-- Modelled from the spec: `attempt(sources, op)` of §4.3, starting at
candidate index 0. -/
def attempt {α : Type} (reg : Registry)
    (op : Fetcher → Source → Except String α) (sources : List Source) :
    FbResult α × List Nat :=
  attemptList reg op sources 0 ""

/-- Modelled from the spec: the `resolveFingerprint` operation of §4.3. -/
def fingerprintOp (f : Fetcher) (s : Source) : Except String String :=
  f.fingerprint s

/-- Modelled from the spec: the `fetchAndFingerprint` operation of §4.3 —
fetch, then re-resolve the fingerprint from the same winning source. -/
def fetchAndFingerprintOp (f : Fetcher) (s : Source) :
    Except String (String × String) :=
  match f.fetch s with
  | .error e => .error e
  | .ok c =>
      match f.fingerprint s with
      | .error e => .error e
      | .ok fp => .ok (c, fp)

/-- Modelled from the spec: the severity of one dataset outcome in the
status lattice of §6/§9 — 0 all good, 1 drift or dataset failure, 2
configuration error (unknown handler tag). -/
def datasetSeverity (reg : Registry) (defPolicy : String) (lk0 : Lock)
    (ds : Dataset) : Int :=
  match reg ds.source.type_ with
  | none => 2
  | some f =>
      match f.fingerprint ds.source with
      | .error _ => 1
      | .ok fp =>
          let stale : Bool := match lk0.items ds.id with
            | none => true
            | some it => it.remoteFingerprint != fp
          if firstNonEmpty ds.policy defPolicy = "fail" ∧ stale then 1 else 0

/-- Modelled from the spec: the run status as the `max` over the ordered
severities of the per-dataset outcomes (§9's status-lattice reduction). -/
def maxSeverity (reg : Registry) (defPolicy : String) (lk0 : Lock)
    (dss : List Dataset) : Int :=
  List.foldl (fun acc ds => max acc (datasetSeverity reg defPolicy lk0 ds))
    0 dss

/-- The fields of a lock entry other than the `checked_at` timestamp —
what "byte-for-byte identical except the timestamps" compares. -/
def LockItem.sansChecked (it : LockItem) :
    String × String × Option Nat × String :=
  (it.localSHA256, it.remoteFingerprint, it.inaccessibleAt,
   it.inaccessibleError)

/-! ### General lemmas about one `Check` step -/

theorem checkStep_items_frame (reg : Registry) (hash : String → String)
    (dp : String) (now : Nat) (st : EngSt) (ds : Dataset) (x : String)
    (hx : x ≠ ds.id) :
    (checkStep reg hash dp now st ds).items x = st.items x := by
  unfold checkStep
  rcases hreg : reg ds.source.type_ with _ | f
  · rfl
  · dsimp only
    rcases hfp : f.fingerprint ds.source with e | fp
    · rfl
    · dsimp only
      split_ifs <;> first
        | rfl
        | (rcases hc : f.fetch ds.source with e | c <;> simp [insertItem, hx])
        | simp [insertItem, hx]

theorem checkStep_fs_frame (reg : Registry) (hash : String → String)
    (dp : String) (now : Nat) (st : EngSt) (ds : Dataset) (p : String)
    (hp : p ≠ ds.target) :
    (checkStep reg hash dp now st ds).fs p = st.fs p := by
  unfold checkStep
  rcases hreg : reg ds.source.type_ with _ | f
  · rfl
  · dsimp only
    rcases hfp : f.fingerprint ds.source with e | fp
    · rfl
    · dsimp only
      split_ifs <;> first
        | rfl
        | (rcases hc : f.fetch ds.source with e | c <;> simp [writeFile, hp])
        | simp [writeFile, hp]

theorem checkStep_items_of_not_update (reg : Registry)
    (hash : String → String) (dp : String) (now : Nat) (st : EngSt)
    (ds : Dataset) (hpol : firstNonEmpty ds.policy dp ≠ "update") :
    (checkStep reg hash dp now st ds).items = st.items := by
  unfold checkStep
  rcases hreg : reg ds.source.type_ with _ | f
  · rfl
  · dsimp only
    rcases hfp : f.fingerprint ds.source with e | fp
    · rfl
    · dsimp only
      split_ifs <;> first
        | rfl
        | exact absurd (by assumption) hpol

theorem checkStep_fs_of_not_update (reg : Registry)
    (hash : String → String) (dp : String) (now : Nat) (st : EngSt)
    (ds : Dataset) (hpol : firstNonEmpty ds.policy dp ≠ "update") :
    (checkStep reg hash dp now st ds).fs = st.fs := by
  unfold checkStep
  rcases hreg : reg ds.source.type_ with _ | f
  · rfl
  · dsimp only
    rcases hfp : f.fingerprint ds.source with e | fp
    · rfl
    · dsimp only
      split_ifs <;> first
        | rfl
        | exact absurd (by assumption) hpol

theorem checkStep_exit_ne_zero (reg : Registry) (hash : String → String)
    (dp : String) (now : Nat) (st : EngSt) (ds : Dataset)
    (h : st.exitCode ≠ 0) :
    (checkStep reg hash dp now st ds).exitCode ≠ 0 := by
  unfold checkStep
  rcases hreg : reg ds.source.type_ with _ | f
  · simpa [h] using h
  · dsimp only
    rcases hfp : f.fingerprint ds.source with e | fp
    · simpa [h] using h
    · dsimp only
      split_ifs <;> first
        | exact h
        | (rcases hc : f.fetch ds.source with e | c <;> simp [h])
        | simp [h]
        | norm_num

theorem checkStep_save_not_mem (reg : Registry) (hash : String → String)
    (dp : String) (now : Nat) (st : EngSt) (ds : Dataset)
    (h : Event.saveLock ∉ st.trace) :
    Event.saveLock ∉ (checkStep reg hash dp now st ds).trace := by
  unfold checkStep
  rcases hreg : reg ds.source.type_ with _ | f
  · simp [h]
  · dsimp only
    rcases hfp : f.fingerprint ds.source with e | fp
    · simp [h]
    · dsimp only
      split_ifs <;> first
        | (rcases hc : f.fetch ds.source with e | c <;> simp [h])
        | simp [h]

theorem checkStep_trace_mem (reg : Registry) (hash : String → String)
    (dp : String) (now : Nat) (st : EngSt) (ds : Dataset) (e : Event)
    (h : e ∈ st.trace) :
    e ∈ (checkStep reg hash dp now st ds).trace := by
  unfold checkStep
  rcases hreg : reg ds.source.type_ with _ | f
  · simp [h]
  · dsimp only
    rcases hfp : f.fingerprint ds.source with e | fp
    · simp [h]
    · dsimp only
      split_ifs <;> first
        | (rcases hc : f.fetch ds.source with e | c <;> simp [h])
        | simp [h]

/-! ### Lemmas about the folded dataset loop -/

theorem checkFold_items_frame (reg : Registry) (hash : String → String)
    (dp : String) (now : Nat) (L : List Dataset) (st : EngSt) (x : String)
    (h : ∀ d ∈ L, x ≠ d.id) :
    (List.foldl (checkStep reg hash dp now) st L).items x = st.items x := by
  induction L generalizing st with
  | nil => rfl
  | cons d L ih =>
      rw [List.foldl_cons,
          ih _ (fun d' hd' => h d' (List.mem_cons_of_mem _ hd'))]
      exact checkStep_items_frame reg hash dp now st d x
        (h d (List.mem_cons_self _ _))

theorem checkFold_fs_frame (reg : Registry) (hash : String → String)
    (dp : String) (now : Nat) (L : List Dataset) (st : EngSt) (p : String)
    (h : ∀ d ∈ L, p ≠ d.target) :
    (List.foldl (checkStep reg hash dp now) st L).fs p = st.fs p := by
  induction L generalizing st with
  | nil => rfl
  | cons d L ih =>
      rw [List.foldl_cons,
          ih _ (fun d' hd' => h d' (List.mem_cons_of_mem _ hd'))]
      exact checkStep_fs_frame reg hash dp now st d p
        (h d (List.mem_cons_self _ _))

theorem checkFold_exit_ne_zero (reg : Registry) (hash : String → String)
    (dp : String) (now : Nat) (L : List Dataset) (st : EngSt)
    (h : st.exitCode ≠ 0) :
    (List.foldl (checkStep reg hash dp now) st L).exitCode ≠ 0 := by
  induction L generalizing st with
  | nil => exact h
  | cons d L ih =>
      rw [List.foldl_cons]
      exact ih _ (checkStep_exit_ne_zero reg hash dp now st d h)

theorem checkFold_save_not_mem (reg : Registry) (hash : String → String)
    (dp : String) (now : Nat) (L : List Dataset) (st : EngSt)
    (h : Event.saveLock ∉ st.trace) :
    Event.saveLock ∉ (List.foldl (checkStep reg hash dp now) st L).trace := by
  induction L generalizing st with
  | nil => exact h
  | cons d L ih =>
      rw [List.foldl_cons]
      exact ih _ (checkStep_save_not_mem reg hash dp now st d h)

theorem checkFold_trace_mem (reg : Registry) (hash : String → String)
    (dp : String) (now : Nat) (L : List Dataset) (st : EngSt) (e : Event)
    (h : e ∈ st.trace) :
    e ∈ (List.foldl (checkStep reg hash dp now) st L).trace := by
  induction L generalizing st with
  | nil => exact h
  | cons d L ih =>
      rw [List.foldl_cons]
      exact ih _ (checkStep_trace_mem reg hash dp now st d e h)

/-! ### Characterizations of the interesting `Check` branches -/

theorem checkStep_unknown (reg : Registry) (hash : String → String)
    (dp : String) (now : Nat) (st : EngSt) (ds : Dataset)
    (hreg : reg ds.source.type_ = none) :
    checkStep reg hash dp now st ds =
      { st with
        exitCode := if st.exitCode = 0 then 2 else st.exitCode,
        trace := st.trace ++ [.warnUnknownType ds.id ds.source.type_] } := by
  unfold checkStep
  rw [hreg]

theorem checkStep_fp_err (reg : Registry) (hash : String → String)
    (dp : String) (now : Nat) (st : EngSt) (ds : Dataset) (f : Fetcher)
    (e : String) (hreg : reg ds.source.type_ = some f)
    (hfp : f.fingerprint ds.source = .error e) :
    checkStep reg hash dp now st ds =
      { st with
        exitCode := if st.exitCode = 0 then 1 else st.exitCode,
        trace := st.trace ++ [.fingerprintCall ds.source.type_ ds.source,
                              .errFingerprint ds.id e] } := by
  unfold checkStep
  rw [hreg]; dsimp only
  rw [hfp]; dsimp only
  simp

theorem checkStep_fail_drift (reg : Registry) (hash : String → String)
    (dp : String) (now : Nat) (st : EngSt) (ds : Dataset) (f : Fetcher)
    (fp : String) (it : LockItem) (hreg : reg ds.source.type_ = some f)
    (hfp : f.fingerprint ds.source = .ok fp)
    (hpol : firstNonEmpty ds.policy dp = "fail")
    (hit : st.items ds.id = some it)
    (hdrift : it.remoteFingerprint ≠ fp) :
    checkStep reg hash dp now st ds =
      { st with
        exitCode := 1,
        trace := st.trace ++ [.fingerprintCall ds.source.type_ ds.source,
                              .failLine ds.id] } := by
  unfold checkStep
  rw [hreg]; dsimp only
  rw [hfp]; dsimp only
  rw [hit, hpol]
  simp [hdrift]

theorem checkStep_log_drift (reg : Registry) (hash : String → String)
    (dp : String) (now : Nat) (st : EngSt) (ds : Dataset) (f : Fetcher)
    (fp : String) (it : LockItem) (hreg : reg ds.source.type_ = some f)
    (hfp : f.fingerprint ds.source = .ok fp)
    (hpol : firstNonEmpty ds.policy dp = "log")
    (hit : st.items ds.id = some it)
    (hdrift : it.remoteFingerprint ≠ fp) :
    checkStep reg hash dp now st ds =
      { st with
        trace := st.trace ++ [.fingerprintCall ds.source.type_ ds.source,
                              .staleLine ds.id] } := by
  unfold checkStep
  rw [hreg]; dsimp only
  rw [hfp]; dsimp only
  rw [hit, hpol]
  simp [hdrift]

theorem checkStep_update_fetch_err (reg : Registry) (hash : String → String)
    (dp : String) (now : Nat) (st : EngSt) (ds : Dataset) (f : Fetcher)
    (fp e : String) (it : LockItem) (hreg : reg ds.source.type_ = some f)
    (hfp : f.fingerprint ds.source = .ok fp)
    (hpol : firstNonEmpty ds.policy dp = "update")
    (hit : st.items ds.id = some it)
    (hdrift : it.remoteFingerprint ≠ fp)
    (hc : f.fetch ds.source = .error e) :
    checkStep reg hash dp now st ds =
      { exitCode := if st.exitCode = 0 then 1 else st.exitCode,
        items := insertItem st.items ds.id
          { it with inaccessibleAt := some now, inaccessibleError := e },
        fs := st.fs,
        trace := st.trace ++ [.fingerprintCall ds.source.type_ ds.source,
                              .updLine ds.id,
                              .fetchCall ds.source.type_ ds.source,
                              .errFetch ds.id e] } := by
  unfold checkStep
  rw [hreg]; dsimp only
  rw [hfp]; dsimp only
  rw [hit, hpol]
  simp [hdrift, hc]

theorem checkStep_update_fetch_ok (reg : Registry) (hash : String → String)
    (dp : String) (now : Nat) (st : EngSt) (ds : Dataset) (f : Fetcher)
    (fp c : String) (hreg : reg ds.source.type_ = some f)
    (hfp : f.fingerprint ds.source = .ok fp)
    (hpol : firstNonEmpty ds.policy dp = "update")
    (hstale : ((match st.items ds.id with
                | none => true
                | some it => it.remoteFingerprint != fp)
               || !(st.fs ds.target).isSome) = true)
    (hc : f.fetch ds.source = .ok c) :
    checkStep reg hash dp now st ds =
      { exitCode := st.exitCode,
        items := insertItem st.items ds.id
          { localSHA256 := hash c, remoteFingerprint := fp,
            checkedAt := some now, inaccessibleAt := none,
            inaccessibleError := "" },
        fs := writeFile st.fs ds.target c,
        trace := st.trace ++ [.fingerprintCall ds.source.type_ ds.source,
                              .updLine ds.id,
                              .fetchCall ds.source.type_ ds.source] } := by
  unfold checkStep
  rw [hreg]; dsimp only
  rw [hfp]; dsimp only
  rw [hpol]
  simp [hstale, hc]
  intro h0
  rcases hfs : st.fs ds.target with _ | c2
  · rfl
  · rw [h0, hfs] at hstale
    simp at hstale

theorem checkStep_update_fresh (reg : Registry) (hash : String → String)
    (dp : String) (now : Nat) (st : EngSt) (ds : Dataset) (f : Fetcher)
    (fp c : String) (it : LockItem) (hreg : reg ds.source.type_ = some f)
    (hfp : f.fingerprint ds.source = .ok fp)
    (hpol : firstNonEmpty ds.policy dp = "update")
    (hit : st.items ds.id = some it)
    (hfresh : it.remoteFingerprint = fp)
    (hfile : st.fs ds.target = some c) :
    checkStep reg hash dp now st ds =
      { st with
        items := insertItem st.items ds.id
          { it with localSHA256 := hash c, remoteFingerprint := fp,
                    checkedAt := some now },
        trace := st.trace ++ [.fingerprintCall ds.source.type_ ds.source,
                              .okLine ds.id] } := by
  unfold checkStep
  rw [hreg]; dsimp only
  rw [hfp]; dsimp only
  rw [hit, hpol]
  simp [hfresh, hfile]

/-! ### Characterizations of the `Fetch` loop body -/

theorem fetchStep_fetch_err (reg : Registry) (hash : String → String)
    (which : List String) (now : Nat) (st : EngSt) (ds : Dataset)
    (f : Fetcher) (e : String) (hw : which = [])
    (hreg : reg ds.source.type_ = some f)
    (hc : f.fetch ds.source = .error e) :
    fetchStep reg hash which now st ds =
      { exitCode := if st.exitCode = 0 then 1 else st.exitCode,
        items := insertItem st.items ds.id
          { (st.items ds.id).getD {} with
              inaccessibleAt := some now, inaccessibleError := e },
        fs := st.fs,
        trace := st.trace ++ [.fetchLine ds.id,
                              .fetchCall ds.source.type_ ds.source,
                              .errFetch ds.id e] } := by
  unfold fetchStep
  rw [hw]; dsimp only
  rw [hreg]; dsimp only
  rw [hc]; dsimp only
  simp

theorem fetchStep_ok (reg : Registry) (hash : String → String)
    (which : List String) (now : Nat) (st : EngSt) (ds : Dataset)
    (f : Fetcher) (c fp : String) (hw : which = [])
    (hreg : reg ds.source.type_ = some f)
    (hc : f.fetch ds.source = .ok c)
    (hfp : f.fingerprint ds.source = .ok fp) :
    fetchStep reg hash which now st ds =
      { exitCode := st.exitCode,
        items := insertItem st.items ds.id
          { localSHA256 := hash c, remoteFingerprint := fp,
            checkedAt := some now, inaccessibleAt := none,
            inaccessibleError := "" },
        fs := writeFile st.fs ds.target c,
        trace := st.trace ++ [.fetchLine ds.id,
                              .fetchCall ds.source.type_ ds.source,
                              .fingerprintCall ds.source.type_ ds.source] } := by
  unfold fetchStep
  rw [hw]; dsimp only
  rw [hreg]; dsimp only
  rw [hc]; dsimp only
  rw [hfp]; dsimp only
  simp

theorem fetchStep_fp_err (reg : Registry) (hash : String → String)
    (which : List String) (now : Nat) (st : EngSt) (ds : Dataset)
    (f : Fetcher) (c e : String) (hw : which = [])
    (hreg : reg ds.source.type_ = some f)
    (hc : f.fetch ds.source = .ok c)
    (hfp : f.fingerprint ds.source = .error e) :
    fetchStep reg hash which now st ds =
      { st with
        exitCode := if st.exitCode = 0 then 1 else st.exitCode,
        fs := writeFile st.fs ds.target c,
        trace := st.trace ++ [.fetchLine ds.id,
                              .fetchCall ds.source.type_ ds.source,
                              .fingerprintCall ds.source.type_ ds.source,
                              .errFingerprint ds.id e] } := by
  unfold fetchStep
  rw [hw]; dsimp only
  rw [hreg]; dsimp only
  rw [hc]; dsimp only
  rw [hfp]; dsimp only
  simp

theorem fetchStep_save_not_mem (reg : Registry) (hash : String → String)
    (which : List String) (now : Nat) (st : EngSt) (ds : Dataset)
    (h : Event.saveLock ∉ st.trace) :
    Event.saveLock ∉ (fetchStep reg hash which now st ds).trace := by
  unfold fetchStep
  split
  · exact h
  · rcases hreg : reg ds.source.type_ with _ | f
    · simp [h]
    · dsimp only
      rcases hc : f.fetch ds.source with e | c
      · simp [h]
      · dsimp only
        rcases hfp : f.fingerprint ds.source with e | fp <;> simp [h]

theorem fetchFold_save_not_mem (reg : Registry) (hash : String → String)
    (which : List String) (now : Nat) (L : List Dataset) (st : EngSt)
    (h : Event.saveLock ∉ st.trace) :
    Event.saveLock ∉
      (List.foldl (fetchStep reg hash which now) st L).trace := by
  induction L generalizing st with
  | nil => exact h
  | cons d L ih =>
      rw [List.foldl_cons]
      exact ih _ (fetchStep_save_not_mem reg hash which now st d h)

/-! ### Concrete fixtures used by witnesses and counterexamples -/

/-- A handler that succeeds: fingerprint `"new"`, content `"data"`. -/
def fOk : Fetcher :=
  { fingerprint := fun _ => .ok "new", fetch := fun _ => .ok "data" }

/-- A handler whose fingerprint computation fails. -/
def fFpErr : Fetcher :=
  { fingerprint := fun _ => .error "fperr", fetch := fun _ => .ok "data" }

/-- A handler that fingerprints fine but fails to fetch. -/
def fFetchErr : Fetcher :=
  { fingerprint := fun _ => .ok "new", fetch := fun _ => .error "neterr" }

/-- A registry with the three mock handlers; every other tag is unknown. -/
def regFix : Registry := fun t =>
  if t = "ok" then some fOk
  else if t = "fperr" then some fFpErr
  else if t = "fetcherr" then some fFetchErr
  else none

/-- A mock content hash. -/
def hashFix : String → String := fun c => "h:" ++ c

/-- A prior lock entry recording fingerprint `"old"` and hash `"lold"`. -/
def itOld : LockItem := { localSHA256 := "lold", remoteFingerprint := "old" }

/-- A lock state holding `itOld` under id `"d1"`. -/
def lkOld : Lock :=
  { version := 1, lastChecked := none,
    items := fun x => if x = "d1" then some itOld else none }

/-- An empty filesystem. -/
def fsEmpty : FS := fun _ => none

/-- A single-source dataset under the succeeding handler. -/
def dsOkSrc : Dataset := { id := "d1", target := "t1", source := ⟨"ok", "", "", "", "", ""⟩ }

/-- A dataset whose handler fingerprint fails, policy update. -/
def dsFpErr : Dataset :=
  { id := "d1", target := "t1", policy := "update", source := ⟨"fperr", "", "", "", "", ""⟩ }

/-- A dataset whose handler fetch fails, policy update. -/
def dsFetchErr : Dataset :=
  { id := "d1", target := "t1", policy := "update", source := ⟨"fetcherr", "", "", "", "", ""⟩ }

/-- A dataset with an unknown source type. -/
def dsNope : Dataset := { id := "d2", target := "t2", source := ⟨"nope", "", "", "", "", ""⟩ }

/-! ### Claim theorems -/

/-- C6: loading the lock state from a path where no file exists never
returns an error and yields a fresh empty state with the format version
initialized and an empty items map; loading a present-but-malformed lock
file returns the parse error. -/
theorem C6_readLock_missing_fresh_malformed_error :
    (∀ parse : String → Except String Lock,
      ∃ l, readLock (.error .notExist) parse = (some l, none) ∧
        l.version = 1 ∧ l.lastChecked = none ∧ ∀ x, l.items x = none) ∧
    (∀ (parse : String → Except String Lock) (b e : String),
      parse b = .error e → readLock (.ok b) parse = (none, some e)) := by
  constructor
  · intro parse
    exact ⟨_, rfl, rfl, rfl, fun x => rfl⟩
  · intro parse b e hp
    unfold readLock
    dsimp only
    rw [hp]

theorem C6_witness :
    ((fun _ : String => (Except.error "bad" : Except String Lock)) "z"
        = .error "bad") ∧
    readLock (.ok "z") (fun _ => .error "bad") = (none, some "bad") :=
  ⟨rfl, C6_readLock_missing_fresh_malformed_error.2
    (fun _ => .error "bad") "z" "bad" rfl⟩

/-- C10: `readLock` returns a fresh empty state and no error for every
failure of reading the lock file, not only absence (e.g. permission
denied); composed with the once-per-run save, a `Check` run over such a
lock file persists a lock state with none of the prior entries. -/
theorem C10_readLock_fresh_on_any_read_error :
    (∀ (e : IOErr) (parse : String → Except String Lock),
      ∃ l, readLock (.error e) parse = (some l, none) ∧
        l.version = 1 ∧ ∀ x, l.items x = none) ∧
    (∀ (reg : Registry) (hash : String → String)
       (parse : String → Except String Lock) (fs0 : FS) (now : Nat)
       (x : String),
      ∃ e lk fsF tr,
        Check reg hash (.ok { datasets := [] })
            (readLock (.error .permissionDenied) parse) fs0 now true
          = .done e lk fsF tr ∧ lk.items x = none) := by
  constructor
  · intro e parse
    cases e <;> exact ⟨_, rfl, rfl, fun x => rfl⟩
  · intro reg hash parse fs0 now x
    exact ⟨0, _, _, _, rfl, rfl⟩

/-- C9: when the lock file is present but malformed, `Check` and `Fetch`
discard the error `readLock` returned and dereference the nil lock it
gave back (the panicked outcome), so the run takes no fatal lock-I/O
error path and returns no exit code. -/
theorem C9_malformed_lock_panics (reg : Registry) (hash : String → String)
    (cfg : Config) (parse : String → Except String Lock) (b e : String)
    (fs0 : FS) (now : Nat) (w : Bool) (which : List String)
    (hp : parse b = .error e) :
    Check reg hash (.ok cfg) (readLock (.ok b) parse) fs0 now w
        = .panicked ∧
    (Check reg hash (.ok cfg) (readLock (.ok b) parse) fs0 now w).exitOf
        = none ∧
    Fetch reg hash (.ok cfg) which (readLock (.ok b) parse) fs0 now w
        = .panicked ∧
    (Fetch reg hash (.ok cfg) which (readLock (.ok b) parse) fs0 now
        w).exitOf = none := by
  have hrl : readLock (.ok b) parse = (none, some e) := by
    unfold readLock
    dsimp only
    rw [hp]
  rw [hrl]
  exact ⟨rfl, rfl, rfl, rfl⟩

theorem C9_witness :
    ((fun _ : String => (Except.error "bad" : Except String Lock)) "z"
        = .error "bad") ∧
    Check (fun _ => none) (fun c => c) (.ok { datasets := [] })
        (readLock (.ok "z") (fun _ => .error "bad")) (fun _ => none) 0 true
      = .panicked :=
  ⟨rfl,
   (C9_malformed_lock_panics (fun _ => none) (fun c => c) { datasets := [] }
      (fun _ => .error "bad") "z" "bad" (fun _ => none) 0 true [] rfl).1⟩

theorem firstInvalid_none (L : List Dataset) :
    ∀ i, firstInvalid i L = none → ∀ ds ∈ L, validateDataset ds = none := by
  induction L with
  | nil => intro i _ ds hds; cases hds
  | cons d L ih =>
      intro i h ds hds
      unfold firstInvalid at h
      rcases hv : validateDataset d with _ | e
      · rw [hv] at h
        rcases List.mem_cons.mp hds with rfl | hds
        · exact hv
        · exact ih (i + 1) h ds hds
      · rw [hv] at h
        simp at h

theorem firstInvalid_some (L : List Dataset) :
    ∀ i, (∃ ds ∈ L, validateDataset ds ≠ none) →
      ∃ r, firstInvalid i L = some r := by
  induction L with
  | nil =>
      intro i h
      rcases h with ⟨ds, hds, _⟩
      cases hds
  | cons d L ih =>
      intro i h
      unfold firstInvalid
      rcases hv : validateDataset d with _ | e
      · rcases h with ⟨ds, hds, hne⟩
        rcases List.mem_cons.mp hds with rfl | hds
        · exact absurd hv hne
        · exact ih (i + 1) ⟨ds, hds, hne⟩
      · exact ⟨_, rfl⟩

/-- C5: loading a dataset configuration fails with the ambiguous-source
error when both the single-source field and the multi-source list are set,
fails with the missing-source error when neither is set, and otherwise
normalizes to an ordered non-empty source list (one-element for a single
source, order-preserving for a list); the validation runs at
configuration-load time, and a run whose configuration failed to load
performs no handler operation. -/
theorem C5_source_validation :
    (∀ ds : Dataset, validateDataset ds = some .ambiguousSource ↔
        (ds.source.type_ ≠ "" ∧ ds.sources ≠ [])) ∧
    (∀ ds : Dataset, validateDataset ds = some .missingSource ↔
        (ds.source.type_ = "" ∧ ds.sources = [])) ∧
    (∀ ds : Dataset, validateDataset ds = none →
        ds.GetSources ≠ [] ∧
        (ds.sources = [] → ds.GetSources = [ds.source]) ∧
        (ds.sources ≠ [] → ds.GetSources = ds.sources)) ∧
    (∀ (raw : Except String Config) (c : Config),
        readConfig raw = .ok c →
        ∀ ds ∈ c.datasets, validateDataset ds = none) ∧
    (∀ c0 : Config, (∃ ds ∈ c0.datasets, validateDataset ds ≠ none) →
        ∃ er, readConfig (.ok c0) = .error er) ∧
    (∀ (reg : Registry) (hash : String → String) (er : ConfigErr)
        (rl : Option Lock × Option String) (fs0 : FS) (now : Nat)
        (w : Bool),
        Check reg hash (.error er) rl fs0 now w = .cfgError ∧
        (Check reg hash (.error er) rl fs0 now w).exitOf = some 2 ∧
        (Check reg hash (.error er) rl fs0 now w).traceOf = []) := by
  refine ⟨?_, ?_, ?_, ?_, ?_, ?_⟩
  · intro ds
    unfold validateDataset
    rcases hs : ds.sources with _ | ⟨a, l⟩ <;>
      by_cases ht : ds.source.type_ = "" <;> simp [ht, hs]
  · intro ds
    unfold validateDataset
    rcases hs : ds.sources with _ | ⟨a, l⟩ <;>
      by_cases ht : ds.source.type_ = "" <;> simp [ht, hs]
  · intro ds h
    unfold validateDataset at h
    unfold Dataset.GetSources
    rcases hs : ds.sources with _ | ⟨a, l⟩ <;>
      by_cases ht : ds.source.type_ = "" <;>
      rw [hs] at h <;> simp [ht, hs] at h ⊢
  · intro raw c h
    cases raw with
    | error e => cases h
    | ok c0 =>
        unfold readConfig at h
        dsimp only at h
        rcases hf : firstInvalid 0 (applyDefaults c0).datasets
          with _ | ⟨i, id, e⟩
        · rw [hf] at h
          cases h
          exact firstInvalid_none (applyDefaults c0).datasets 0 hf
        · rw [hf] at h
          cases h
  · intro c0 hex
    unfold readConfig
    dsimp only
    have hds : (applyDefaults c0).datasets = c0.datasets := rfl
    obtain ⟨r, hr⟩ :=
      firstInvalid_some (applyDefaults c0).datasets 0 (hds ▸ hex)
    rw [hr]
    rcases r with ⟨i, id, e⟩
    exact ⟨_, rfl⟩
  · intro reg hash er rl fs0 now w
    exact ⟨rfl, rfl, rfl⟩

/-- A dataset configured with both the single source and the list. -/
def dsBoth : Dataset :=
  { id := "d", target := "t", source := ⟨"ok", "", "", "", "", ""⟩,
    sources := [⟨"file", "", "", "", "", ""⟩] }

/-- A dataset configured with neither source form. -/
def dsNeither : Dataset := { id := "d", target := "t" }

theorem C5_witness :
    validateDataset dsBoth = some .ambiguousSource ∧
    validateDataset dsNeither = some .missingSource ∧
    validateDataset dsOkSrc = none ∧
    Dataset.GetSources dsOkSrc = [dsOkSrc.source] := by
  refine ⟨?_, ?_, ?_, ?_⟩
  · exact (C5_source_validation.1 _).mpr ⟨by decide, by simp [dsBoth]⟩
  · exact (C5_source_validation.2.1 _).mpr ⟨rfl, rfl⟩
  · rfl
  · exact ((C5_source_validation.2.2.1 dsOkSrc (by simp [validateDataset, dsOkSrc])).2.1) rfl

theorem nodup_map_split {α β : Type} (f : α → β) (pre post : List α) (a : α)
    (h : ((pre ++ a :: post).map f).Nodup) :
    (∀ d ∈ pre, f a ≠ f d) ∧ (∀ d ∈ post, f a ≠ f d) := by
  rw [List.map_append, List.map_cons] at h
  constructor
  · intro d hd heq
    exact (List.disjoint_of_nodup_append h) (heq ▸ List.mem_map_of_mem f hd)
      (List.mem_cons_self _ _)
  · intro d hd heq
    exact (List.nodup_cons.mp h.of_append_right).1
      (heq ▸ List.mem_map_of_mem f hd)

/-- C1: for a dataset checked under policy `fail` or `log` whose current
fingerprint differs from the recorded one, the persisted lock entry is
unchanged by the run (in particular `remote_fingerprint` and
`local_sha256`); the exit code is non-zero under `fail`, and a stale line
is emitted under `log`. -/
theorem C1_drift_never_mutates_entry (reg : Registry)
    (hash : String → String) (cfg : Config) (lk0 : Lock) (fs0 : FS)
    (now : Nat) (w : Bool) (ds : Dataset) (f : Fetcher) (fp : String)
    (it : LockItem) (hids : (cfg.datasets.map Dataset.id).Nodup)
    (hmem : ds ∈ cfg.datasets)
    (hpol : firstNonEmpty ds.policy cfg.defaults.policy = "fail" ∨
            firstNonEmpty ds.policy cfg.defaults.policy = "log")
    (hreg : reg ds.source.type_ = some f)
    (hfp : f.fingerprint ds.source = .ok fp)
    (hit : lk0.items ds.id = some it)
    (hdrift : it.remoteFingerprint ≠ fp) :
    ∃ e lk fsF tr,
      Check reg hash (.ok cfg) (some lk0, none) fs0 now w
        = .done e lk fsF tr ∧
      lk.items ds.id = some it ∧
      (firstNonEmpty ds.policy cfg.defaults.policy = "fail" → e ≠ 0) ∧
      (firstNonEmpty ds.policy cfg.defaults.policy = "log" →
        Event.staleLine ds.id ∈ tr) := by
  obtain ⟨pre, post, heq⟩ := List.append_of_mem hmem
  have hnd := nodup_map_split Dataset.id pre post ds (heq ▸ hids)
  refine ⟨_, _, _, _, rfl, ?_, ?_, ?_⟩
  all_goals
    unfold checkOver
    rw [heq, List.foldl_append, List.foldl_cons]
  all_goals
    have hst1 : (List.foldl
        (checkStep reg hash cfg.defaults.policy now)
        ⟨0, lk0.items, fs0, []⟩ pre).items ds.id = some it := by
      rw [checkFold_items_frame reg hash cfg.defaults.policy now pre _ ds.id
        (fun d hd => hnd.1 d hd)]
      exact hit
  · -- the entry is unchanged by the whole run
    dsimp only
    rw [checkFold_items_frame reg hash cfg.defaults.policy now post _ ds.id
      (fun d hd => hnd.2 d hd)]
    rcases hpol with hpol | hpol
    · rw [checkStep_fail_drift reg hash cfg.defaults.policy now _ ds f fp it
        hreg hfp hpol hst1 hdrift]
      exact hst1
    · rw [checkStep_log_drift reg hash cfg.defaults.policy now _ ds f fp it
        hreg hfp hpol hst1 hdrift]
      exact hst1
  · -- fail escalates
    intro hfail
    have h1 : (checkStep reg hash cfg.defaults.policy now
        (List.foldl (checkStep reg hash cfg.defaults.policy now)
          ⟨0, lk0.items, fs0, []⟩ pre) ds).exitCode = 1 := by
      rw [checkStep_fail_drift reg hash cfg.defaults.policy now _ ds f fp it
        hreg hfp hfail hst1 hdrift]
    have h2 := checkFold_exit_ne_zero reg hash cfg.defaults.policy now post _
      (by rw [h1]; norm_num)
    split_ifs with h3
    · exact h2
    · exact h2
  · -- log emits a stale line
    intro hlog
    have h1 : Event.staleLine ds.id ∈ (checkStep reg hash
        cfg.defaults.policy now
        (List.foldl (checkStep reg hash cfg.defaults.policy now)
          ⟨0, lk0.items, fs0, []⟩ pre) ds).trace := by
      rw [checkStep_log_drift reg hash cfg.defaults.policy now _ ds f fp it
        hreg hfp hlog hst1 hdrift]
      simp
    have h2 := checkFold_trace_mem reg hash cfg.defaults.policy now post _
      (Event.staleLine ds.id) h1
    simp [h2]

/-- A drifted dataset under the `fail` policy, for the C1 witness. -/
def dsFail : Dataset :=
  { id := "d1", target := "t1", policy := "fail",
    source := ⟨"ok", "", "", "", "", ""⟩ }

theorem C1_witness :
    ∃ e lk fsF tr,
      Check regFix hashFix (.ok { datasets := [dsFail] }) (some lkOld, none)
          fsEmpty 5 true = .done e lk fsF tr ∧
      lk.items "d1" = some itOld ∧
      (firstNonEmpty dsFail.policy
          (Config.defaults { datasets := [dsFail] }).policy = "fail" →
        e ≠ 0) ∧
      (firstNonEmpty dsFail.policy
          (Config.defaults { datasets := [dsFail] }).policy = "log" →
        Event.staleLine "d1" ∈ tr) :=
  C1_drift_never_mutates_entry regFix hashFix { datasets := [dsFail] }
    lkOld fsEmpty 5 true dsFail fOk "new" itOld
    (by simp) (by simp) (Or.inl rfl) rfl rfl (by simp [lkOld, dsFail]) (by decide)

/-- C4: the run's exit code at the claim's own scenario — a drifted
dataset under `fail` (severity 1) followed by a dataset with an unknown
handler tag (severity 2).  The code returns 1, not the severity maximum 2
computed by the spec's status lattice: the engine only promotes a zero
exit code (`if exit == 0`), and the `fail` branch assigns 1
unconditionally, contradicting its own "track highest severity" comment.
-/
theorem C4_exit_not_max_severity :
    (Check regFix hashFix (.ok { datasets := [dsFail, dsNope] })
        (some lkOld, none) fsEmpty 5 true).exitOf = some 1 ∧
    maxSeverity regFix
        (Config.defaults { datasets := [dsFail, dsNope] }).policy lkOld
        [dsFail, dsNope] = 2 := by
  constructor
  · rfl
  · rfl

/-- C3 counterexample: a dataset whose only configured source fails — at
the fingerprint step — under the `update` policy.  The claim says the
lock entry's `inaccessible_at`/`inaccessible_error` are set after the
run; in fact the entry is left entirely untouched, with the inaccessible
fields still empty. -/
theorem C3_counterexample :
    (Check regFix hashFix (.ok { datasets := [dsFpErr] })
        (some lkOld, none) fsEmpty 5 true).lockOf.map
        (fun l => l.items "d1") = some (some itOld) ∧
    itOld.inaccessibleAt = none ∧ itOld.inaccessibleError = "" := by
  exact ⟨rfl, rfl, rfl⟩

/-- C3 (amended): when the source fails at the *fetch* step during an
`update`-policy check, the lock entry's inaccessible fields are set and
its `remote_fingerprint`/`local_sha256` keep their prior values, and the
run escalates; a *fingerprint*-step failure leaves the entry untouched
without setting the fields (the counterexample); a successful refresh —
in `Check` or in `Fetch` — writes a fresh entry with the inaccessible
fields cleared, and a `Fetch` fetch failure likewise sets the fields
preserving fingerprint and hash. -/
theorem C3_amended_inaccessible_fields :
    (∀ (reg : Registry) (hash : String → String) (cfg : Config) (lk0 : Lock)
       (fs0 : FS) (now : Nat) (w : Bool) (ds : Dataset) (f : Fetcher)
       (fp msg : String) (it : LockItem),
      (cfg.datasets.map Dataset.id).Nodup → ds ∈ cfg.datasets →
      firstNonEmpty ds.policy cfg.defaults.policy = "update" →
      reg ds.source.type_ = some f →
      f.fingerprint ds.source = .ok fp →
      lk0.items ds.id = some it → it.remoteFingerprint ≠ fp →
      f.fetch ds.source = .error msg →
      ∃ e lk fsF tr,
        Check reg hash (.ok cfg) (some lk0, none) fs0 now w
          = .done e lk fsF tr ∧
        lk.items ds.id = some { it with inaccessibleAt := some now,
                                        inaccessibleError := msg } ∧
        e ≠ 0) ∧
    (∀ (reg : Registry) (hash : String → String) (dp : String) (now : Nat)
       (st : EngSt) (ds : Dataset) (f : Fetcher) (e : String),
      reg ds.source.type_ = some f → f.fingerprint ds.source = .error e →
      (checkStep reg hash dp now st ds).items = st.items) ∧
    (∀ (reg : Registry) (hash : String → String) (dp : String) (now : Nat)
       (st : EngSt) (ds : Dataset) (f : Fetcher) (fp c : String),
      reg ds.source.type_ = some f → f.fingerprint ds.source = .ok fp →
      firstNonEmpty ds.policy dp = "update" →
      ((match st.items ds.id with
        | none => true
        | some it => it.remoteFingerprint != fp)
       || !(st.fs ds.target).isSome) = true →
      f.fetch ds.source = .ok c →
      (checkStep reg hash dp now st ds).items ds.id
        = some { localSHA256 := hash c, remoteFingerprint := fp,
                 checkedAt := some now, inaccessibleAt := none,
                 inaccessibleError := "" }) ∧
    (∀ (reg : Registry) (hash : String → String) (now : Nat) (st : EngSt)
       (ds : Dataset) (f : Fetcher) (msg : String),
      reg ds.source.type_ = some f → f.fetch ds.source = .error msg →
      (fetchStep reg hash [] now st ds).items ds.id
        = some { (st.items ds.id).getD {} with
                   inaccessibleAt := some now,
                   inaccessibleError := msg }) ∧
    (∀ (reg : Registry) (hash : String → String) (now : Nat) (st : EngSt)
       (ds : Dataset) (f : Fetcher) (c fp : String),
      reg ds.source.type_ = some f → f.fetch ds.source = .ok c →
      f.fingerprint ds.source = .ok fp →
      (fetchStep reg hash [] now st ds).items ds.id
        = some { localSHA256 := hash c, remoteFingerprint := fp,
                 checkedAt := some now, inaccessibleAt := none,
                 inaccessibleError := "" }) := by
  refine ⟨?_, ?_, ?_, ?_, ?_⟩
  · intro reg hash cfg lk0 fs0 now w ds f fp msg it hids hmem hpol hreg hfp
      hit hdrift hc
    obtain ⟨pre, post, heq⟩ := List.append_of_mem hmem
    have hnd := nodup_map_split Dataset.id pre post ds (heq ▸ hids)
    refine ⟨_, _, _, _, rfl, ?_, ?_⟩
    all_goals
      unfold checkOver
      rw [heq, List.foldl_append, List.foldl_cons]
    all_goals
      have hst1 : (List.foldl
          (checkStep reg hash cfg.defaults.policy now)
          ⟨0, lk0.items, fs0, []⟩ pre).items ds.id = some it := by
        rw [checkFold_items_frame reg hash cfg.defaults.policy now pre _
          ds.id (fun d hd => hnd.1 d hd)]
        exact hit
    · dsimp only
      rw [checkFold_items_frame reg hash cfg.defaults.policy now post _
        ds.id (fun d hd => hnd.2 d hd)]
      rw [checkStep_update_fetch_err reg hash cfg.defaults.policy now _ ds
        f fp msg it hreg hfp hpol hst1 hdrift hc]
      simp [insertItem]
    · have h1 : (checkStep reg hash cfg.defaults.policy now
          (List.foldl (checkStep reg hash cfg.defaults.policy now)
            ⟨0, lk0.items, fs0, []⟩ pre) ds).exitCode ≠ 0 := by
        rw [checkStep_update_fetch_err reg hash cfg.defaults.policy now _
          ds f fp msg it hreg hfp hpol hst1 hdrift hc]
        dsimp only
        split_ifs with h0
        · norm_num
        · exact h0
      have h2 := checkFold_exit_ne_zero reg hash cfg.defaults.policy now
        post _ h1
      split_ifs with h3
      · exact h2
      · exact h2
  · intro reg hash dp now st ds f e hreg hfp
    rw [checkStep_fp_err reg hash dp now st ds f e hreg hfp]
  · intro reg hash dp now st ds f fp c hreg hfp hpol hstale hc
    rw [checkStep_update_fetch_ok reg hash dp now st ds f fp c hreg hfp
      hpol hstale hc]
    simp [insertItem]
  · intro reg hash now st ds f msg hreg hc
    rw [fetchStep_fetch_err reg hash [] now st ds f msg rfl hreg hc]
    simp [insertItem]
  · intro reg hash now st ds f c fp hreg hc hfp
    rw [fetchStep_ok reg hash [] now st ds f c fp rfl hreg hc hfp]
    simp [insertItem]

theorem C3_amended_witness :
    ∃ e lk fsF tr,
      Check regFix hashFix (.ok { datasets := [dsFetchErr] })
          (some lkOld, none) fsEmpty 5 true = .done e lk fsF tr ∧
      lk.items "d1" = some { itOld with inaccessibleAt := some 5,
                                        inaccessibleError := "neterr" } ∧
      e ≠ 0 :=
  C3_amended_inaccessible_fields.1 regFix hashFix
    { datasets := [dsFetchErr] } lkOld fsEmpty 5 true dsFetchErr fFetchErr
    "new" "neterr" itOld (by simp) (by simp) rfl rfl rfl
    (by simp [lkOld, dsFetchErr]) (by decide) rfl

theorem path_ne_tmp (path : String) : path ≠ path ++ ".tmp" := by
  intro h
  have hl := congrArg String.length h
  rw [String.length_append] at hl
  simp at hl
  exact absurd hl (by decide)

/-- C7 counterexample: a run whose configuration fails to load returns 2
without ever invoking the lock save, so "each run of Check or Fetch
invokes save exactly once" fails as stated. -/
theorem C7_counterexample :
    Check regFix hashFix (.error (.parseError "bad")) (some lkOld, none)
        fsEmpty 5 true = .cfgError ∧
    (Check regFix hashFix (.error (.parseError "bad")) (some lkOld, none)
        fsEmpty 5 true).traceOf.count Event.saveLock = 0 :=
  ⟨rfl, rfl⟩

/-- C7 (amended): `writeLock` stages the serialized lock at
`path ++ ".tmp"` and then renames it onto `path`: before the rename the
destination still holds its previous content, and after it the complete
new content; every `Check` or `Fetch` run that loads its configuration
successfully and obtains a non-nil lock state (whatever discarded error
accompanies it) emits exactly one save, after all datasets, of a lock
with the fresh `last_checked` timestamp and version, whatever the exit
code; a run whose configuration fails to load exits 2 without saving,
and a run whose lock load yields a nil lock panics without saving. -/
theorem C7_amended_atomic_save_once :
    (∀ (fs : FS) (path c : String),
      writeLockTmp fs path c path = fs path ∧
      writeLockDone fs path c path = some c ∧
      writeLockTmp fs path c (path ++ ".tmp") = some c ∧
      writeLockDone fs path c (path ++ ".tmp") = none) ∧
    (∀ (reg : Registry) (hash : String → String) (cfg : Config)
       (lk0 : Lock) (le : Option String) (fs0 : FS) (now : Nat) (w : Bool),
      ∃ e lk fsF tr0,
        Check reg hash (.ok cfg) (some lk0, le) fs0 now w
          = .done e lk fsF (tr0 ++ [Event.saveLock]) ∧
        Event.saveLock ∉ tr0 ∧
        lk.lastChecked = some now ∧ lk.version = 1) ∧
    (∀ (reg : Registry) (hash : String → String) (cfg : Config)
       (which : List String) (lk0 : Lock) (le : Option String) (fs0 : FS)
       (now : Nat) (w : Bool),
      ∃ e lk fsF tr0,
        Fetch reg hash (.ok cfg) which (some lk0, le) fs0 now w
          = .done e lk fsF (tr0 ++ [Event.saveLock]) ∧
        Event.saveLock ∉ tr0 ∧
        lk.lastChecked = some now ∧ lk.version = 1) ∧
    (∀ (reg : Registry) (hash : String → String) (er : ConfigErr)
       (rl : Option Lock × Option String) (fs0 : FS) (now : Nat)
       (w : Bool),
      Check reg hash (.error er) rl fs0 now w = .cfgError ∧
      (Check reg hash (.error er) rl fs0 now w).exitOf = some 2 ∧
      (Check reg hash (.error er) rl fs0 now w).traceOf.count
        Event.saveLock = 0) ∧
    (∀ (reg : Registry) (hash : String → String) (cfg : Config)
       (which : List String) (le : Option String) (fs0 : FS) (now : Nat)
       (w : Bool),
      Check reg hash (.ok cfg) (none, le) fs0 now w = .panicked ∧
      (Check reg hash (.ok cfg) (none, le) fs0 now w).traceOf.count
        Event.saveLock = 0 ∧
      Fetch reg hash (.ok cfg) which (none, le) fs0 now w = .panicked ∧
      (Fetch reg hash (.ok cfg) which (none, le) fs0 now w).traceOf.count
        Event.saveLock = 0) := by
  refine ⟨?_, ?_, ?_, ?_, ?_⟩
  · intro fs path c
    refine ⟨?_, ?_, ?_, ?_⟩
    · unfold writeLockTmp writeFile
      rw [if_neg (path_ne_tmp path)]
    · unfold writeLockDone
      rw [if_pos rfl]
    · unfold writeLockTmp writeFile
      rw [if_pos rfl]
    · unfold writeLockDone
      rw [if_neg fun h => path_ne_tmp path h.symm, if_pos rfl]
  · intro reg hash cfg lk0 le fs0 now w
    exact ⟨_, _, _, _, rfl,
      checkFold_save_not_mem reg hash cfg.defaults.policy now cfg.datasets
        ⟨0, lk0.items, fs0, []⟩ (by simp), rfl, rfl⟩
  · intro reg hash cfg which lk0 le fs0 now w
    exact ⟨_, _, _, _, rfl,
      fetchFold_save_not_mem reg hash which now cfg.datasets
        ⟨0, lk0.items, fs0, []⟩ (by simp), rfl, rfl⟩
  · intro reg hash er rl fs0 now w
    exact ⟨rfl, rfl, rfl⟩
  · intro reg hash cfg which le fs0 now w
    exact ⟨rfl, rfl, rfl, rfl⟩

theorem attemptList_first_success {α : Type} (reg : Registry)
    (op : Fetcher → Source → Except String α) :
    ∀ (ss : List Source) (k : Nat) (hk : k < ss.length) (v : α) (i : Nat)
      (le : String),
      singleAttempt reg op (ss.get ⟨k, hk⟩) = .ok v →
      (∀ j : Nat, j < k →
        ∃ e, ∃ hj : j < ss.length,
          singleAttempt reg op (ss.get ⟨j, hj⟩) = .error e) →
      (attemptList reg op ss i le).1 = .ok v (i + k) (i + k + 1) ∧
      ∀ j ∈ (attemptList reg op ss i le).2, j ≤ i + k := by
  intro ss
  induction ss with
  | nil => intro k hk; simp at hk
  | cons s rest ih =>
      intro k hk v i le hs hf
      cases k with
      | zero =>
          have hs0 : singleAttempt reg op s = .ok v := hs
          unfold attemptList
          unfold singleAttempt at hs0
          rcases hreg : reg s.type_ with _ | f
          · rw [hreg] at hs0
            dsimp only at hs0
            cases hs0
          · rw [hreg] at hs0
            dsimp only at hs0
            dsimp only
            rw [hs0]
            dsimp only
            constructor
            · simp
            · intro j hj
              simp at hj
              omega
      | succ k =>
          obtain ⟨e0, h0, he0⟩ := hf 0 (Nat.succ_pos k)
          have he0s : singleAttempt reg op s = .error e0 := he0
          have hk' : k < rest.length := Nat.lt_of_succ_lt_succ hk
          have hs' : singleAttempt reg op (rest.get ⟨k, hk'⟩) = .ok v := hs
          have hf' : ∀ j : Nat, j < k →
              ∃ e, ∃ hj : j < rest.length,
                singleAttempt reg op (rest.get ⟨j, hj⟩) = .error e := by
            intro j hj
            obtain ⟨e, hje, hfe⟩ := hf (j + 1) (Nat.succ_lt_succ hj)
            exact ⟨e, Nat.lt_of_succ_lt_succ hje, hfe⟩
          unfold attemptList
          unfold singleAttempt at he0s
          rcases hreg : reg s.type_ with _ | f
          · dsimp only
            have hrec := ih k hk' v (i + 1) "handler not found" hs' hf'
            have harith : i + 1 + k = i + (k + 1) := by omega
            rw [harith] at hrec
            exact hrec
          · rw [hreg] at he0s
            dsimp only at he0s
            dsimp only
            rw [he0s]
            dsimp only
            have hrec := ih k hk' v (i + 1) e0 hs' hf'
            have harith : i + 1 + k = i + (k + 1) := by omega
            rw [harith] at hrec
            constructor
            · exact hrec.1
            · intro j hj
              rcases List.mem_cons.mp hj with rfl | hj
              · omega
              · exact hrec.2 j hj

/-- C2: over the normalized multi-source list, if source k is the first
whose attempt succeeds, the fallback coordinator returns exactly source
k's value with winning index k after k+1 attempts, invokes no source
after index k, and the value equals what source k produces alone. -/
theorem C2_first_success_short_circuit {α : Type} (reg : Registry)
    (op : Fetcher → Source → Except String α) (ds : Dataset) (k : Nat)
    (v : α) (hms : ds.sources ≠ []) (hk : k < ds.sources.length)
    (hsucc : singleAttempt reg op (ds.sources.get ⟨k, hk⟩) = .ok v)
    (hfail : ∀ j : Nat, j < k →
      ∃ e, ∃ hj : j < ds.sources.length,
        singleAttempt reg op (ds.sources.get ⟨j, hj⟩) = .error e) :
    (attempt reg op ds.GetSources).1 = .ok v k (k + 1) ∧
    (∀ j ∈ (attempt reg op ds.GetSources).2, j ≤ k) ∧
    (attempt reg op [ds.sources.get ⟨k, hk⟩]).1 = .ok v 0 1 := by
  have hgs : ds.GetSources = ds.sources := by
    unfold Dataset.GetSources
    rw [if_pos (List.length_pos.mpr hms)]
  have hmain := attemptList_first_success reg op ds.sources k hk v 0 ""
    hsucc hfail
  have hone := attemptList_first_success reg op [ds.sources.get ⟨k, hk⟩] 0
    (by simp) v 0 "" hsucc (by intro j hj; omega)
  refine ⟨?_, ?_, ?_⟩
  · rw [hgs]
    simpa using hmain.1
  · intro j hj
    rw [hgs] at hj
    simpa using hmain.2 j hj
  · simpa using hone.1

/-- A two-source dataset whose first source's handler fails, for the C2
witness. -/
def dsTwoSrc : Dataset :=
  { id := "d3", target := "t3",
    sources := [⟨"fperr", "", "", "", "", ""⟩, ⟨"ok", "", "", "", "", ""⟩] }

theorem C2_witness :
    (attempt regFix fingerprintOp dsTwoSrc.GetSources).1
        = .ok "new" 1 2 ∧
    (∀ j ∈ (attempt regFix fingerprintOp dsTwoSrc.GetSources).2, j ≤ 1) ∧
    (attempt regFix fingerprintOp
        [dsTwoSrc.sources.get ⟨1, by decide⟩]).1 = .ok "new" 0 1 :=
  C2_first_success_short_circuit regFix fingerprintOp dsTwoSrc 1 "new"
    (by decide) (by decide) rfl
    (by
      intro j hj
      interval_cases j
      exact ⟨"fperr", by decide, rfl⟩)

/-! ### Lemmas for the idempotence claim -/

theorem checkStep_update_establishes (reg : Registry)
    (hash : String → String) (dp : String) (now : Nat) (st : EngSt)
    (ds : Dataset) (f : Fetcher) (fp c : String)
    (hreg : reg ds.source.type_ = some f)
    (hfp : f.fingerprint ds.source = .ok fp)
    (hpol : firstNonEmpty ds.policy dp = "update")
    (hfetch : f.fetch ds.source = .ok c) :
    ∃ it c2, (checkStep reg hash dp now st ds).items ds.id = some it ∧
      (checkStep reg hash dp now st ds).fs ds.target = some c2 ∧
      it.remoteFingerprint = fp ∧ it.localSHA256 = hash c2 := by
  by_cases hcond : ((match st.items ds.id with
      | none => true
      | some it => it.remoteFingerprint != fp)
     || !(st.fs ds.target).isSome) = true
  · rw [checkStep_update_fetch_ok reg hash dp now st ds f fp c hreg hfp
      hpol hcond hfetch]
    exact ⟨{ localSHA256 := hash c, remoteFingerprint := fp,
             checkedAt := some now, inaccessibleAt := none,
             inaccessibleError := "" }, c,
           by simp [insertItem], by simp [writeFile], rfl, rfl⟩
  · have hcond2 := hcond
    simp only [Bool.or_eq_true, not_or, Bool.not_eq_true] at hcond2
    obtain ⟨hstale, hsome⟩ := hcond2
    rcases hit : st.items ds.id with _ | it0
    · rw [hit] at hstale
      simp at hstale
    · rw [hit] at hstale
      have hrf : it0.remoteFingerprint = fp := by
        simpa using hstale
      rcases hfs : st.fs ds.target with _ | c0
      · rw [hfs] at hsome
        simp at hsome
      · rw [checkStep_update_fresh reg hash dp now st ds f fp c0 it0 hreg
          hfp hpol hit hrf hfs]
        refine ⟨{ it0 with localSHA256 := hash c0,
                           remoteFingerprint := fp,
                           checkedAt := some now }, c0,
                by simp [insertItem], ?_, rfl, rfl⟩
        exact hfs

/-- What the first `update`-policy run guarantees at a dataset's lock id
and target path, as the second run needs it: either the handler is
unknown or its fingerprint fails (and the second run repeats that
verbatim), or the entry records exactly the current fingerprint and the
hash of the target file's content. -/
def runShape (reg : Registry) (hash : String → String) (st1 : EngSt)
    (d : Dataset) : Prop :=
  match reg d.source.type_ with
  | none => True
  | some f =>
      match f.fingerprint d.source with
      | .error _ => True
      | .ok fp => ∃ it c, st1.items d.id = some it ∧
          st1.fs d.target = some c ∧
          it.remoteFingerprint = fp ∧ it.localSHA256 = hash c

theorem checkStep_idem_preserve (reg : Registry) (hash : String → String)
    (dp : String) (now : Nat) (st st1 : EngSt) (d : Dataset)
    (hpol : firstNonEmpty d.policy dp = "update")
    (hshape : runShape reg hash st1 d)
    (hfs : ∀ p, st.fs p = st1.fs p)
    (hitems : ∀ x, (st.items x).map LockItem.sansChecked
        = (st1.items x).map LockItem.sansChecked) :
    (∀ p, (checkStep reg hash dp now st d).fs p = st1.fs p) ∧
    (∀ x, ((checkStep reg hash dp now st d).items x).map
        LockItem.sansChecked = (st1.items x).map LockItem.sansChecked) := by
  unfold runShape at hshape
  rcases hreg : reg d.source.type_ with _ | f
  · rw [checkStep_unknown reg hash dp now st d hreg]
    exact ⟨hfs, hitems⟩
  · rw [hreg] at hshape
    dsimp only at hshape
    rcases hfpr : f.fingerprint d.source with e | fp
    · rw [checkStep_fp_err reg hash dp now st d f e hreg hfpr]
      exact ⟨hfs, hitems⟩
    · rw [hfpr] at hshape
      dsimp only at hshape
      obtain ⟨it1, c1, hit1, hc1, hrf1, hls1⟩ := hshape
      have hmap := hitems d.id
      rw [hit1] at hmap
      obtain ⟨it2, hit2, hsans⟩ := Option.map_eq_some'.mp hmap
      have hls2 : it2.localSHA256 = it1.localSHA256 :=
        congrArg (fun q => q.1) hsans
      have hrf2 : it2.remoteFingerprint = it1.remoteFingerprint :=
        congrArg (fun q => q.2.1) hsans
      have hia2 : it2.inaccessibleAt = it1.inaccessibleAt :=
        congrArg (fun q => q.2.2.1) hsans
      have hie2 : it2.inaccessibleError = it1.inaccessibleError :=
        congrArg (fun q => q.2.2.2) hsans
      have hfsd : st.fs d.target = some c1 := by rw [hfs d.target]; exact hc1
      rw [checkStep_update_fresh reg hash dp now st d f fp c1 it2 hreg hfpr
        hpol hit2 (by rw [hrf2, hrf1]) hfsd]
      constructor
      · exact hfs
      · intro x
        by_cases hx : x = d.id
        · subst hx
          simp only [insertItem, if_pos rfl]
          rw [hit1]
          unfold LockItem.sansChecked
          simp [hia2, hie2, hrf1, hls1]
        · simp only [insertItem, if_neg hx]
          exact hitems x

theorem checkFold_idem (reg : Registry) (hash : String → String)
    (dp : String) (now2 : Nat) (st1 : EngSt) :
    ∀ (L : List Dataset) (st : EngSt),
      (∀ d ∈ L, firstNonEmpty d.policy dp = "update" ∧
        runShape reg hash st1 d) →
      (∀ p, st.fs p = st1.fs p) →
      (∀ x, (st.items x).map LockItem.sansChecked
          = (st1.items x).map LockItem.sansChecked) →
      (∀ p, (List.foldl (checkStep reg hash dp now2) st L).fs p
          = st1.fs p) ∧
      (∀ x, ((List.foldl (checkStep reg hash dp now2) st L).items x).map
          LockItem.sansChecked = (st1.items x).map LockItem.sansChecked)
    := by
  intro L
  induction L with
  | nil => intro st _ hf hi; exact ⟨hf, hi⟩
  | cons d L ih =>
      intro st hall hf hi
      rw [List.foldl_cons]
      have hd := hall d (List.mem_cons_self _ _)
      have hstep := checkStep_idem_preserve reg hash dp now2 st st1 d hd.1
        hd.2 hf hi
      exact ih _ (fun d' hd' => hall d' (List.mem_cons_of_mem _ hd'))
        hstep.1 hstep.2

theorem checkOver_shape (reg : Registry) (hash : String → String)
    (cfg : Config) (lk0items : String → Option LockItem) (fs0 : FS)
    (now1 : Nat) (hids : (cfg.datasets.map Dataset.id).Nodup)
    (htgt : (cfg.datasets.map Dataset.target).Nodup)
    (hpol : ∀ ds ∈ cfg.datasets,
      firstNonEmpty ds.policy cfg.defaults.policy = "update")
    (hok : ∀ ds ∈ cfg.datasets, ∀ f, reg ds.source.type_ = some f →
      ∃ c, f.fetch ds.source = .ok c) :
    ∀ d ∈ cfg.datasets,
      runShape reg hash (checkOver reg hash cfg lk0items fs0 now1) d := by
  intro d hd
  unfold runShape
  rcases hreg : reg d.source.type_ with _ | f
  · trivial
  · dsimp only
    rcases hfpr : f.fingerprint d.source with e | fp
    · trivial
    · dsimp only
      obtain ⟨pre, post, heq⟩ := List.append_of_mem hd
      have hndid := nodup_map_split Dataset.id pre post d (heq ▸ hids)
      have hndtg := nodup_map_split Dataset.target pre post d (heq ▸ htgt)
      obtain ⟨c, hc⟩ := hok d hd f hreg
      obtain ⟨it, c2, hito, hfso, hrf, hls⟩ :=
        checkStep_update_establishes reg hash cfg.defaults.policy now1
          (List.foldl (checkStep reg hash cfg.defaults.policy now1)
            ⟨0, lk0items, fs0, []⟩ pre) d f fp c hreg hfpr (hpol d hd) hc
      refine ⟨it, c2, ?_, ?_, hrf, hls⟩
      · unfold checkOver
        rw [heq, List.foldl_append, List.foldl_cons]
        rw [checkFold_items_frame reg hash cfg.defaults.policy now1 post _
          d.id (fun d' hd' => hndid.2 d' hd')]
        exact hito
      · unfold checkOver
        rw [heq, List.foldl_append, List.foldl_cons]
        rw [checkFold_fs_frame reg hash cfg.defaults.policy now1 post _
          d.target (fun d' hd' => hndtg.2 d' hd')]
        exact hfso

/-- C8 (amended): running `Check` twice under the `update` policy with no
external change between the runs — pure handlers, the second run starting
from the first run's lock and filesystem — where the datasets have
pairwise distinct ids and targets and every resolvable handler's fetch
succeeds, leaves the persisted lock state identical except for the
`checked_at` and `last_checked` timestamps, and the filesystem untouched.
-/
theorem C8_amended_idempotent (reg : Registry) (hash : String → String)
    (cfg : Config) (lk0 : Lock) (fs0 : FS) (now1 now2 : Nat) (w1 w2 : Bool)
    (hids : (cfg.datasets.map Dataset.id).Nodup)
    (htgt : (cfg.datasets.map Dataset.target).Nodup)
    (hpol : ∀ ds ∈ cfg.datasets,
      firstNonEmpty ds.policy cfg.defaults.policy = "update")
    (hok : ∀ ds ∈ cfg.datasets, ∀ f, reg ds.source.type_ = some f →
      ∃ c, f.fetch ds.source = .ok c) :
    ∃ e1 lk1 fs1 tr1 e2 lk2 fs2 tr2,
      Check reg hash (.ok cfg) (some lk0, none) fs0 now1 w1
        = .done e1 lk1 fs1 tr1 ∧
      Check reg hash (.ok cfg) (some lk1, none) fs1 now2 w2
        = .done e2 lk2 fs2 tr2 ∧
      (∀ p, fs2 p = fs1 p) ∧
      lk2.version = 1 ∧ lk1.version = 1 ∧
      lk2.lastChecked = some now2 ∧ lk1.lastChecked = some now1 ∧
      (∀ x, (lk2.items x).map LockItem.sansChecked
          = (lk1.items x).map LockItem.sansChecked) := by
  have hshape := checkOver_shape reg hash cfg lk0.items fs0 now1 hids htgt
    hpol hok
  have hmain := checkFold_idem reg hash cfg.defaults.policy now2
    (checkOver reg hash cfg lk0.items fs0 now1) cfg.datasets
    ⟨0, (checkOver reg hash cfg lk0.items fs0 now1).items,
      (checkOver reg hash cfg lk0.items fs0 now1).fs, []⟩
    (fun d hd => ⟨hpol d hd, hshape d hd⟩) (fun p => rfl) (fun x => rfl)
  refine ⟨_, _, _, _, _, _, _, _, rfl, rfl, ?_, rfl, rfl, rfl, rfl, ?_⟩
  · intro p
    exact hmain.1 p
  · intro x
    exact hmain.2 x

/-- The config for the C8 counterexample: one update-policy dataset whose
source's fetch always fails. -/
def c8cfg : Config := { datasets := [dsFetchErr] }

/-- The lock entry after the first failing run. -/
def c8item1 : LockItem :=
  { itOld with inaccessibleAt := some 5, inaccessibleError := "neterr" }

/-- The lock state persisted by the first run. -/
def c8lock1 : Lock :=
  { version := 1, lastChecked := some 5,
    items := insertItem lkOld.items "d1" c8item1 }

/-- C8 counterexample: an update-policy dataset whose source's fetch fails
in both runs, with no external change between them: the second run's
persisted lock differs from the first in `inaccessible_at` (5 versus 7) —
a field other than the `checked_at`/`last_checked` timestamps — so the two
lock states are not byte-for-byte identical up to those timestamps. -/
theorem C8_counterexample :
    (Check regFix hashFix (.ok c8cfg) (some lkOld, none) fsEmpty 5
        true).lockOf = some c8lock1 ∧
    (Check regFix hashFix (.ok c8cfg) (some lkOld, none) fsEmpty 5
        true).fsOf = some fsEmpty ∧
    (c8lock1.items "d1").map LockItem.inaccessibleAt = some (some 5) ∧
    ((Check regFix hashFix (.ok c8cfg) (some c8lock1, none) fsEmpty 7
        true).lockOf.map fun l => (l.items "d1").map
          LockItem.inaccessibleAt) = some (some (some 7)) :=
  ⟨rfl, rfl, rfl, rfl⟩

/-- An update-policy dataset under the succeeding handler, for the C8
witness. -/
def dsUpd : Dataset :=
  { id := "d1", target := "t1", policy := "update",
    source := ⟨"ok", "", "", "", "", ""⟩ }

theorem C8_witness :
    ∃ e1 lk1 fs1 tr1 e2 lk2 fs2 tr2,
      Check regFix hashFix (.ok { datasets := [dsUpd] }) (some lkOld, none)
          fsEmpty 5 true = .done e1 lk1 fs1 tr1 ∧
      Check regFix hashFix (.ok { datasets := [dsUpd] }) (some lk1, none)
          fs1 7 true = .done e2 lk2 fs2 tr2 ∧
      (∀ p, fs2 p = fs1 p) ∧
      lk2.version = 1 ∧ lk1.version = 1 ∧
      lk2.lastChecked = some 7 ∧ lk1.lastChecked = some 5 ∧
      (∀ x, (lk2.items x).map LockItem.sansChecked
          = (lk1.items x).map LockItem.sansChecked) :=
  C8_amended_idempotent regFix hashFix { datasets := [dsUpd] } lkOld
    fsEmpty 5 7 true true (by simp) (by simp)
    (by
      intro ds hds
      rw [List.mem_singleton] at hds
      subst hds
      rfl)
    (by
      intro ds hds f hf
      rw [List.mem_singleton] at hds
      subst hds
      have hof : some fOk = some f := hf
      cases hof
      exact ⟨"data", rfl⟩)

end Datum
